import Mathlib

/-!
Verification of the resilience layer of the Marketing Campaign Analytics
server: the `CircuitBreaker` state machine (src/unnamed/part_003), the
`callExternalModelApi` fallback wrapper around it, and the `InMemoryCache`
TTL cache (src/server/cache.ts).

All code is embedded shallowly: JavaScript wall-clock reads (`Date.now()`)
become an explicit `now : Nat` argument, mutation of `this.stats` /
`this.cache` becomes explicit state passing, a thrown error becomes an
explicit error constructor, and the asynchronous wrapped operation is
represented by its settled outcome `Except String α` (the value it
fulfills with, or the message of the error it rejects with, after the
breaker's internal timeout race has been decided).
-/

/-- The three states of the breaker, exactly the TypeScript union
`"CLOSED" | "OPEN" | "HALF_OPEN"`. -/
inductive CircuitState where
  | CLOSED
  | OPEN
  | HALF_OPEN
deriving DecidableEq, Repr

/-- `CircuitBreakerOptions` from the source: thresholds and the two
durations (milliseconds). -/
structure CircuitBreakerOptions where
  failureThreshold : Nat
  successThreshold : Nat
  timeout : Nat
  resetTimeout : Nat
deriving DecidableEq, Repr

/-- `CircuitStats` from the source: the breaker's whole mutable state. -/
structure CircuitStats where
  failures : Nat
  successes : Nat
  lastFailureTime : Option Nat
  state : CircuitState
deriving DecidableEq, Repr

/-- The initial stats installed by the constructor, and also the value
`reset()` writes back: all counters zero, no recorded failure, CLOSED. -/
def initStats : CircuitStats :=
  { failures := 0, successes := 0, lastFailureTime := none, state := CircuitState.CLOSED }

/-- `CircuitBreaker.reset`: overwrites the stats with the initial value. -/
def CircuitBreaker.reset : CircuitStats := initStats

/-- `CircuitBreaker.shouldAttemptReset`: the guard
`if (!this.stats.lastFailureTime) return true` fires when the recorded
time is null and also — `0` being falsy in JavaScript — when it is the
epoch instant 0; otherwise the answer is whether at least `resetTimeout`
milliseconds have elapsed since the last recorded failure. Subtraction is
on `Int` because the JavaScript expression is ordinary number
subtraction. -/
def CircuitBreaker.shouldAttemptReset (opts : CircuitBreakerOptions)
    (s : CircuitStats) (now : Nat) : Bool :=
  match s.lastFailureTime with
  | none => true
  | some t =>
      if t = 0 then true
      else decide ((opts.resetTimeout : Int) ≤ (now : Int) - (t : Int))

/-- `CircuitBreaker.onSuccess`: in HALF_OPEN, increment `successes` and
reset everything once the success threshold is reached; in any other state
just clear the failure counter. -/
def CircuitBreaker.onSuccess (opts : CircuitBreakerOptions)
    (s : CircuitStats) : CircuitStats :=
  if s.state = CircuitState.HALF_OPEN then
    let s1 := { s with successes := s.successes + 1 }
    if opts.successThreshold ≤ s1.successes then CircuitBreaker.reset else s1
  else
    { s with failures := 0 }

/-- `CircuitBreaker.onFailure`: increment `failures` and stamp
`lastFailureTime`; a failure in HALF_OPEN re-trips to OPEN and clears
`successes`, while elsewhere the breaker trips to OPEN only once
`failures` reaches the failure threshold. -/
def CircuitBreaker.onFailure (opts : CircuitBreakerOptions)
    (s : CircuitStats) (now : Nat) : CircuitStats :=
  let s1 := { s with failures := s.failures + 1, lastFailureTime := some now }
  if s1.state = CircuitState.HALF_OPEN then
    { s1 with state := CircuitState.OPEN, successes := 0 }
  else if opts.failureThreshold ≤ s1.failures then
    { s1 with state := CircuitState.OPEN }
  else
    s1

/-- Result of one `execute` call: the value returned, the wrapped call's
error rethrown after bookkeeping, or the distinguished rejection thrown
while the breaker is OPEN (`Error("Circuit breaker is OPEN - service
unavailable")` in the source) without running the wrapped operation. -/
inductive ExecResult (α : Type) where
  | ok (value : α)
  | thrown (msg : String)
  | circuitOpen
deriving DecidableEq, Repr

/-- The body of `execute` after the OPEN gate: await the wrapped call,
then run `onSuccess` and return the value, or run `onFailure` and rethrow
the error. -/
def CircuitBreaker.runCall {α : Type} (opts : CircuitBreakerOptions)
    (s : CircuitStats) (now : Nat) (call : Except String α) :
    ExecResult α × CircuitStats :=
  match call with
  | Except.ok a => (ExecResult.ok a, CircuitBreaker.onSuccess opts s)
  | Except.error e => (ExecResult.thrown e, CircuitBreaker.onFailure opts s now)

/-- `CircuitBreaker.execute`: when OPEN, either move to HALF_OPEN first
(cooldown elapsed) and let the call proceed, or reject immediately;
otherwise the call proceeds directly. -/
def CircuitBreaker.execute {α : Type} (opts : CircuitBreakerOptions)
    (s : CircuitStats) (now : Nat) (call : Except String α) :
    ExecResult α × CircuitStats :=
  if s.state = CircuitState.OPEN then
    if CircuitBreaker.shouldAttemptReset opts s now then
      CircuitBreaker.runCall opts { s with state := CircuitState.HALF_OPEN } now call
    else
      (ExecResult.circuitOpen, s)
  else
    CircuitBreaker.runCall opts s now call

/-- A fresh breaker hit by `n` consecutive failing calls, all at the same
instant `now` (any instants give the same states while the breaker has not
yet tripped, since CLOSED-state bookkeeping ignores the clock). -/
def iterFail (opts : CircuitBreakerOptions) (now : Nat) : Nat → CircuitStats
  | 0 => initStats
  | n + 1 =>
      (CircuitBreaker.execute opts (iterFail opts now n) now
        (Except.error "fail" : Except String Unit)).2

/-- Production configuration of `modelApiCircuitBreaker`. -/
def optsEx : CircuitBreakerOptions :=
  { failureThreshold := 3, successThreshold := 2, timeout := 10000, resetTimeout := 30000 }

theorem iterFail_closed (opts : CircuitBreakerOptions) (now : Nat) (n : Nat)
    (h : n < opts.failureThreshold) :
    (iterFail opts now n).state = CircuitState.CLOSED ∧ (iterFail opts now n).failures = n := by
  induction n with
  | zero => exact ⟨rfl, rfl⟩
  | succ n ih =>
      obtain ⟨hst, hf⟩ := ih (Nat.lt_of_succ_lt h)
      unfold iterFail
      rw [CircuitBreaker.execute]
      rw [hst]
      simp only [reduceCtorEq, if_false]
      rw [CircuitBreaker.runCall]
      unfold CircuitBreaker.onFailure
      simp only [hst, hf]
      have hnotrip : ¬ opts.failureThreshold ≤ n + 1 := Nat.not_le_of_lt h
      simp [hnotrip]

theorem iterFail_trips (opts : CircuitBreakerOptions) (now : Nat)
    (h : 1 ≤ opts.failureThreshold) :
    (iterFail opts now opts.failureThreshold).state = CircuitState.OPEN := by
  obtain ⟨m, hm⟩ : ∃ m, opts.failureThreshold = m + 1 :=
    ⟨opts.failureThreshold - 1, (Nat.succ_pred_eq_of_pos h).symm⟩
  rw [hm]
  obtain ⟨hst, hf⟩ := iterFail_closed opts now m (by omega)
  unfold iterFail
  rw [CircuitBreaker.execute, hst]
  simp only [reduceCtorEq, if_false]
  rw [CircuitBreaker.runCall]
  unfold CircuitBreaker.onFailure
  simp only [hst, hf]
  have htrip : opts.failureThreshold ≤ m + 1 := by omega
  simp [htrip, hm]

/-- C1: a new breaker starts CLOSED; while CLOSED every successful
`execute` leaves the state with `failures` reset to 0 and everything else
unchanged, and every failing `execute` increments `failures` and stamps
`lastFailureTime := now`; from a fresh breaker, `failureThreshold - 1`
consecutive failures leave the state CLOSED and the
`failureThreshold`-th consecutive failure trips it to OPEN. -/
theorem closed_state_transitions (opts : CircuitBreakerOptions)
    (hft : 1 ≤ opts.failureThreshold) :
    initStats.state = CircuitState.CLOSED
    ∧ (∀ (α : Type) (s : CircuitStats) (now : Nat) (a : α),
        s.state = CircuitState.CLOSED →
        (CircuitBreaker.execute opts s now (Except.ok a)).2 = { s with failures := 0 })
    ∧ (∀ (α : Type) (s : CircuitStats) (now : Nat) (e : String),
        s.state = CircuitState.CLOSED →
        (CircuitBreaker.execute opts s now (Except.error e : Except String α)).2.failures
            = s.failures + 1
        ∧ (CircuitBreaker.execute opts s now (Except.error e : Except String α)).2.lastFailureTime
            = some now)
    ∧ (∀ now : Nat, (iterFail opts now (opts.failureThreshold - 1)).state = CircuitState.CLOSED)
    ∧ (∀ now : Nat, (iterFail opts now opts.failureThreshold).state = CircuitState.OPEN) := by
  refine ⟨rfl, ?_, ?_, ?_, ?_⟩
  · intro α s now a hs
    rw [CircuitBreaker.execute, hs]
    simp only [reduceCtorEq, if_false]
    rw [CircuitBreaker.runCall]
    unfold CircuitBreaker.onSuccess
    simp [hs]
  · intro α s now e hs
    rw [CircuitBreaker.execute, hs]
    simp only [reduceCtorEq, if_false]
    rw [CircuitBreaker.runCall]
    unfold CircuitBreaker.onFailure
    constructor
    · simp only [hs]
      by_cases h : opts.failureThreshold ≤ s.failures + 1 <;> simp [h]
    · simp only [hs]
      by_cases h : opts.failureThreshold ≤ s.failures + 1 <;> simp [h]
  · intro now
    exact (iterFail_closed opts now (opts.failureThreshold - 1) (by omega)).1
  · intro now
    exact iterFail_trips opts now hft

/-- Witness for C1 at the production configuration (threshold 3): two
failures leave a fresh breaker CLOSED, the third trips it OPEN, and a
success while CLOSED clears the failure counter. -/
theorem closed_state_transitions_witness :
    (iterFail optsEx 100 2).state = CircuitState.CLOSED
    ∧ (iterFail optsEx 100 3).state = CircuitState.OPEN
    ∧ (CircuitBreaker.execute optsEx (iterFail optsEx 100 2) 100
        (Except.ok (5 : Nat))).2.failures = 0 := by
  have h := closed_state_transitions optsEx (by decide)
  refine ⟨h.2.2.2.1 100, h.2.2.2.2 100, ?_⟩
  have hs : (iterFail optsEx 100 2).state = CircuitState.CLOSED := h.2.2.2.1 100
  rw [h.2.1 Nat (iterFail optsEx 100 2) 100 5 hs]

/-- A representative stats value for a breaker that tripped OPEN at
instant 50. -/
def statsOpenEx : CircuitStats :=
  { failures := 3, successes := 0, lastFailureTime := some 50, state := CircuitState.OPEN }

/-- An OPEN state whose last failure was recorded at the epoch instant 0,
as produced by three consecutive failing calls at `now = 0` against the
production configuration. -/
def statsOpenZero : CircuitStats :=
  { failures := 3, successes := 0, lastFailureTime := some 0, state := CircuitState.OPEN }

/-- C2 counterexample: the state `statsOpenZero` is reachable (three
failures at instant 0 trip the production breaker), yet a call at
instant 10 — well inside the 30000 ms cooldown — is not rejected: the
falsy-zero guard `!this.stats.lastFailureTime` treats the epoch timestamp
0 like "never failed", so the call probes and the breaker state changes. -/
theorem open_state_execute_counterexample :
    iterFail optsEx 0 3 = statsOpenZero
    ∧ CircuitBreaker.execute optsEx statsOpenZero 10 (Except.ok (7 : Nat))
        ≠ (ExecResult.circuitOpen, statsOpenZero) := by
  decide

/-- C2 (amended to a last failure recorded at a nonzero instant): while
OPEN with a recorded last failure at `t > 0`, if the cooldown has not
elapsed then `execute` rejects with the distinguished circuit-open error
and leaves the state untouched, whatever the wrapped operation would have
done (it is never invoked); once the cooldown has elapsed, `execute`
behaves exactly as the call body run on the state moved to HALF_OPEN
first, so the transitioning call is itself the probe. -/
theorem open_state_execute (opts : CircuitBreakerOptions) (α : Type)
    (s : CircuitStats) (now t : Nat) (call : Except String α)
    (hs : s.state = CircuitState.OPEN) (hl : s.lastFailureTime = some t)
    (ht : 0 < t) :
    ((now : Int) - (t : Int) < (opts.resetTimeout : Int) →
        CircuitBreaker.execute opts s now call = (ExecResult.circuitOpen, s))
    ∧ ((opts.resetTimeout : Int) ≤ (now : Int) - (t : Int) →
        CircuitBreaker.execute opts s now call
          = CircuitBreaker.runCall opts { s with state := CircuitState.HALF_OPEN } now call) := by
  have hne : t ≠ 0 := by omega
  constructor
  · intro hcool
    rw [CircuitBreaker.execute, hs]
    have hres : CircuitBreaker.shouldAttemptReset opts s now = false := by
      rw [CircuitBreaker.shouldAttemptReset, hl]
      simp only [hne, if_false, decide_eq_false_iff_not, not_le]
      exact hcool
    simp [hres]
  · intro hcool
    rw [CircuitBreaker.execute, hs]
    have hres : CircuitBreaker.shouldAttemptReset opts s now = true := by
      rw [CircuitBreaker.shouldAttemptReset, hl]
      simp only [hne, if_false, decide_eq_true_eq]
      exact hcool
    simp [hres]

/-- Witness for C2 at the production configuration: 10 ms after the last
failure the call is rejected with the state unchanged, and 30000 ms after
it the call runs as a HALF_OPEN probe. -/
theorem open_state_execute_witness :
    CircuitBreaker.execute optsEx statsOpenEx 60 (Except.ok (7 : Nat))
        = (ExecResult.circuitOpen, statsOpenEx)
    ∧ CircuitBreaker.execute optsEx statsOpenEx 30050 (Except.ok (7 : Nat))
        = CircuitBreaker.runCall optsEx
            { statsOpenEx with state := CircuitState.HALF_OPEN } 30050 (Except.ok (7 : Nat)) :=
  ⟨(open_state_execute optsEx Nat statsOpenEx 60 50 (Except.ok 7) rfl rfl
      (by decide)).1 (by decide),
   (open_state_execute optsEx Nat statsOpenEx 30050 50 (Except.ok 7) rfl rfl
      (by decide)).2 (by decide)⟩

/-- C3: in HALF_OPEN a success below the success threshold only increments
`successes`; the success that reaches the threshold restores CLOSED with
every counter zeroed; and a single failure re-trips to OPEN, zeroes
`successes` and stamps `lastFailureTime := now`. -/
theorem half_open_transitions (opts : CircuitBreakerOptions) (α : Type)
    (s : CircuitStats) (now : Nat) (a : α) (e : String)
    (hs : s.state = CircuitState.HALF_OPEN) :
    (s.successes + 1 < opts.successThreshold →
        (CircuitBreaker.execute opts s now (Except.ok a)).2
          = { s with successes := s.successes + 1 })
    ∧ (opts.successThreshold ≤ s.successes + 1 →
        (CircuitBreaker.execute opts s now (Except.ok a)).2 = initStats)
    ∧ ((CircuitBreaker.execute opts s now (Except.error e : Except String α)).2.state
          = CircuitState.OPEN
        ∧ (CircuitBreaker.execute opts s now (Except.error e : Except String α)).2.successes = 0
        ∧ (CircuitBreaker.execute opts s now (Except.error e : Except String α)).2.lastFailureTime
          = some now) := by
  have hno : ¬ s.state = CircuitState.OPEN := by rw [hs]; exact fun h => nomatch h
  refine ⟨?_, ?_, ?_⟩
  · intro hbelow
    rw [CircuitBreaker.execute]
    simp only [hno, if_false]
    rw [CircuitBreaker.runCall]
    unfold CircuitBreaker.onSuccess
    simp [hs, Nat.not_le_of_lt hbelow]
  · intro hreach
    rw [CircuitBreaker.execute]
    simp only [hno, if_false]
    rw [CircuitBreaker.runCall]
    unfold CircuitBreaker.onSuccess
    simp [hs, hreach, CircuitBreaker.reset]
  · rw [CircuitBreaker.execute]
    simp only [hno, if_false]
    rw [CircuitBreaker.runCall]
    unfold CircuitBreaker.onFailure
    simp [hs]

/-- Witness for C3 at the production configuration (success threshold 2):
from a HALF_OPEN state with one recorded success, one more success closes
the breaker with zeroed counters, and from a HALF_OPEN state with no
successes, a single failure re-trips it to OPEN stamping the clock. -/
theorem half_open_transitions_witness :
    (CircuitBreaker.execute optsEx
        { failures := 3, successes := 1, lastFailureTime := some 50,
          state := CircuitState.HALF_OPEN } 200 (Except.ok (7 : Nat))).2 = initStats
    ∧ (CircuitBreaker.execute optsEx
        { failures := 3, successes := 0, lastFailureTime := some 50,
          state := CircuitState.HALF_OPEN } 200
        (Except.error "boom" : Except String Nat)).2.state = CircuitState.OPEN :=
  ⟨(half_open_transitions optsEx Nat
      { failures := 3, successes := 1, lastFailureTime := some 50,
        state := CircuitState.HALF_OPEN } 200 7 "boom" rfl).2.1 (by decide),
   ((half_open_transitions optsEx Nat
      { failures := 3, successes := 0, lastFailureTime := some 50,
        state := CircuitState.HALF_OPEN } 200 7 "boom" rfl).2.2).1⟩

/-- C10 counterexample: at the reachable OPEN state `statsOpenZero`
(last failure stamped at the epoch instant 0) a failing call at instant
10, inside the cooldown window, is not an atomic rejection: the
falsy-zero guard lets it through as a probe and the call mutates the
breaker state. -/
theorem open_rejection_atomic_counterexample :
    (CircuitBreaker.execute optsEx statsOpenZero 10
        (Except.error "boom" : Except String Nat)).2 ≠ statsOpenZero := by
  decide

/-- C10 (amended to a last failure recorded at a nonzero instant): a call
rejected because the breaker is OPEN inside the cooldown window leaves
every component of the breaker state exactly as it was, and in
particular is not counted as a failure and does not move
`lastFailureTime`, so rejections cannot extend the cooldown. -/
theorem open_rejection_atomic (opts : CircuitBreakerOptions) (α : Type)
    (s : CircuitStats) (now t : Nat) (call : Except String α)
    (hs : s.state = CircuitState.OPEN) (hl : s.lastFailureTime = some t)
    (ht : 0 < t)
    (hcool : (now : Int) - (t : Int) < (opts.resetTimeout : Int)) :
    (CircuitBreaker.execute opts s now call).2 = s
    ∧ (CircuitBreaker.execute opts s now call).1 = ExecResult.circuitOpen := by
  rw [CircuitBreaker.execute, hs]
  have hres : CircuitBreaker.shouldAttemptReset opts s now = false := by
    rw [CircuitBreaker.shouldAttemptReset, hl]
    have hne : t ≠ 0 := by omega
    simp only [hne, if_false, decide_eq_false_iff_not, not_le]
    exact hcool
  simp [hres]

/-- Witness for C10: a rejected call at instant 60 against the production
configuration returns the state it was given, bit for bit. -/
theorem open_rejection_atomic_witness :
    (CircuitBreaker.execute optsEx statsOpenEx 60
        (Except.error "boom" : Except String Nat)).2 = statsOpenEx :=
  (open_rejection_atomic optsEx Nat statsOpenEx 60 50 (Except.error "boom")
    rfl rfl (by decide) (by decide)).1

/-- `callExternalModelApi`: run the operation through the breaker; any
thrown error (circuit open, timeout, or the operation's own error) is
caught, logged, and replaced by the caller-supplied fallback value. -/
def callExternalModelApi {α : Type} (opts : CircuitBreakerOptions)
    (s : CircuitStats) (now : Nat) (call : Except String α) (fallback : α) :
    α × CircuitStats :=
  match CircuitBreaker.execute opts s now call with
  | (ExecResult.ok a, s2) => (a, s2)
  | (ExecResult.thrown _, s2) => (fallback, s2)
  | (ExecResult.circuitOpen, s2) => (fallback, s2)

/-- C8: the fallback wrapper always completes with a value of the result
type: the operation's value when the breaker call succeeds, and the
fallback value on every failing outcome (circuit-open rejection or a
rethrown call error), never propagating the error. -/
theorem resilient_invoke_total (opts : CircuitBreakerOptions) (α : Type)
    (s : CircuitStats) (now : Nat) (call : Except String α) (fallback : α) :
    (∀ (a : α) (s2 : CircuitStats),
        CircuitBreaker.execute opts s now call = (ExecResult.ok a, s2) →
        callExternalModelApi opts s now call fallback = (a, s2))
    ∧ (∀ (e : String) (s2 : CircuitStats),
        CircuitBreaker.execute opts s now call = (ExecResult.thrown e, s2) →
        callExternalModelApi opts s now call fallback = (fallback, s2))
    ∧ (∀ s2 : CircuitStats,
        CircuitBreaker.execute opts s now call = (ExecResult.circuitOpen, s2) →
        callExternalModelApi opts s now call fallback = (fallback, s2)) := by
  refine ⟨?_, ?_, ?_⟩
  · intro a s2 h
    rw [callExternalModelApi, h]
  · intro e s2 h
    rw [callExternalModelApi, h]
  · intro s2 h
    rw [callExternalModelApi, h]

/-- Witness for C8: concrete successful, failing and rejected calls all
return a value, the last two returning the fallback 9. -/
theorem resilient_invoke_total_witness :
    callExternalModelApi optsEx initStats 0 (Except.ok (7 : Nat)) 9 = (7, initStats)
    ∧ (callExternalModelApi optsEx initStats 0 (Except.error "boom" : Except String Nat) 9).1 = 9
    ∧ (callExternalModelApi optsEx statsOpenEx 60 (Except.ok (7 : Nat)) 9).1 = 9 := by
  refine ⟨(resilient_invoke_total optsEx Nat initStats 0 (Except.ok 7) 9).1 7 initStats
      (by decide), ?_, ?_⟩
  · rw [(resilient_invoke_total optsEx Nat initStats 0 (Except.error "boom") 9).2.1 "boom"
      (CircuitBreaker.onFailure optsEx initStats 0) (by decide)]
  · rw [(resilient_invoke_total optsEx Nat statsOpenEx 60 (Except.ok 7) 9).2.2 statsOpenEx
      (by decide)]

/-- `CacheEntry` from src/server/cache.ts: a stored value with its
absolute expiry instant in epoch milliseconds. -/
structure CacheEntry (α : Type) where
  data : α
  expiresAt : Nat
deriving DecidableEq, Repr

/-- The backing `Map<string, CacheEntry>`: an insertion-ordered
association list whose keys are unique (a JavaScript Map holds at most
one entry per key). -/
abbrev Cache (α : Type) := List (String × CacheEntry α)

/-- `Map.prototype.get`. -/
def mapGet {α : Type} (c : Cache α) (k : String) : Option (CacheEntry α) :=
  (c.find? (fun kv => kv.1 == k)).map Prod.snd

/-- `Map.prototype.set`: overwrite in place when the key is present
(preserving insertion order), append otherwise. -/
def mapSet {α : Type} (c : Cache α) (k : String) (e : CacheEntry α) : Cache α :=
  if c.any (fun kv => kv.1 == k) then
    c.map (fun kv => if kv.1 == k then (k, e) else kv)
  else
    c ++ [(k, e)]

/-- `Map.prototype.delete` (state part): drop the entry stored under the
key. Keys are unique in a Map, so filtering every occurrence removes
exactly that entry. -/
def mapDelete {α : Type} (c : Cache α) (k : String) : Cache α :=
  c.filter (fun kv => kv.1 != k)

/-- `InMemoryCache.set`: store the value under the key with
`expiresAt = now + ttlSeconds * 1000`, overwriting any prior entry. -/
def InMemoryCache.set {α : Type} (c : Cache α) (key : String) (data : α)
    (ttlSeconds : Nat) (now : Nat) : Cache α :=
  mapSet c key { data := data, expiresAt := now + ttlSeconds * 1000 }

/-- `InMemoryCache.get`: absent keys return null; an entry whose expiry
has passed (`Date.now() > entry.expiresAt`) is deleted and null is
returned; otherwise the stored value is returned. The pair carries the
cache state after the call. -/
def InMemoryCache.get {α : Type} (c : Cache α) (key : String) (now : Nat) :
    Option α × Cache α :=
  match mapGet c key with
  | none => (none, c)
  | some entry =>
      if entry.expiresAt < now then (none, mapDelete c key)
      else (some entry.data, c)

/-- `InMemoryCache.has`: same shape as `get`, returning a boolean. -/
def InMemoryCache.has {α : Type} (c : Cache α) (key : String) (now : Nat) :
    Bool × Cache α :=
  match mapGet c key with
  | none => (false, c)
  | some entry =>
      if entry.expiresAt < now then (false, mapDelete c key)
      else (true, c)

/-- `InMemoryCache.delete`: forwards to `Map.delete`, which reports
whether the key was present. -/
def InMemoryCache.delete {α : Type} (c : Cache α) (key : String) :
    Bool × Cache α :=
  (c.any (fun kv => kv.1 == key), mapDelete c key)

/-- The loop of `invalidatePattern` over the snapshot `keys` array:
delete, and count, every snapshot key the compiled pattern accepts. -/
def invalidateLoop {α : Type} (test : String → Bool) (ks : List String)
    (count : Nat) (c : Cache α) : Nat × Cache α :=
  match ks with
  | [] => (count, c)
  | k :: rest =>
      if test k then invalidateLoop test rest (count + 1) (mapDelete c k)
      else invalidateLoop test rest count c

/-- `InMemoryCache.invalidatePattern`: snapshot the key set, then delete
every key the pattern accepts, returning how many were deleted. The
compiled regular expression is abstracted by its acceptance predicate
`test` (the source compiles the pattern once with `new RegExp(pattern)`
and only ever calls `regex.test`). -/
def InMemoryCache.invalidatePattern {α : Type} (c : Cache α)
    (test : String → Bool) : Nat × Cache α :=
  invalidateLoop test (c.map Prod.fst) 0 c

/-- `invalidatePattern` as called with a raw pattern string:
`new RegExp(pattern)` either compiles to an acceptance predicate or
throws a SyntaxError, which the method does not catch; `compiled` is the
outcome of that compilation. -/
def invalidatePatternChecked {α : Type} (c : Cache α)
    (compiled : Option (String → Bool)) : Except String (Nat × Cache α) :=
  match compiled with
  | none => Except.error "Invalid regular expression pattern"
  | some test => Except.ok (InMemoryCache.invalidatePattern c test)

/-- `InMemoryCache.clear`. -/
def InMemoryCache.clear {α : Type} (_c : Cache α) : Cache α := []

/-- Return type of `InMemoryCache.stats`. -/
structure CacheStats where
  size : Nat
  keys : List String
deriving DecidableEq, Repr

/-- `InMemoryCache.stats`. -/
def InMemoryCache.stats {α : Type} (c : Cache α) : CacheStats :=
  { size := c.length, keys := c.map Prod.fst }

/-- `InMemoryCache.cleanup` (the background sweep): drop every expired
entry. -/
def InMemoryCache.cleanup {α : Type} (c : Cache α) (now : Nat) : Cache α :=
  c.filter (fun kv => !(decide (kv.2.expiresAt < now)))

/-- `InMemoryCache.destroy` (state part): stop the sweep timer and clear
the map. -/
def InMemoryCache.destroy {α : Type} (_c : Cache α) : Cache α := []

theorem find_map_upd {α : Type} (k : String) (e : CacheEntry α) (c : Cache α)
    (h : c.any (fun kv => kv.1 == k) = true) :
    (c.map (fun kv => if kv.1 == k then (k, e) else kv)).find? (fun kv => kv.1 == k)
      = some (k, e) := by
  induction c with
  | nil => simp at h
  | cons kv rest ih =>
      simp only [List.map_cons]
      by_cases hk : (kv.1 == k) = true
      · rw [if_pos hk]
        exact List.find?_cons_of_pos _ (beq_self_eq_true k)
      · have h2 : rest.any (fun kv => kv.1 == k) = true := by
          simp only [List.any_cons, Bool.or_eq_true] at h
          rcases h with h | h
          · exact absurd h hk
          · exact h
        rw [if_neg hk, @List.find?_cons_of_neg _ (fun kv => kv.1 == k) kv _ hk]
        exact ih h2

theorem find_append_new {α : Type} (k : String) (e : CacheEntry α) (c : Cache α)
    (h : c.any (fun kv => kv.1 == k) = false) :
    (c ++ [(k, e)]).find? (fun kv => kv.1 == k) = some (k, e) := by
  induction c with
  | nil =>
      rw [List.nil_append]
      exact List.find?_cons_of_pos _ (beq_self_eq_true k)
  | cons kv rest ih =>
      simp only [List.any_cons, Bool.or_eq_false_iff] at h
      rw [List.cons_append,
        @List.find?_cons_of_neg _ (fun kv => kv.1 == k) kv _ (by simp [h.1])]
      exact ih h.2

theorem mapGet_mapSet_self {α : Type} (c : Cache α) (k : String) (e : CacheEntry α) :
    mapGet (mapSet c k e) k = some e := by
  rw [mapGet, mapSet]
  cases hany : c.any (fun kv => kv.1 == k) with
  | true =>
      rw [if_pos rfl, find_map_upd k e c hany]
      rfl
  | false =>
      rw [if_neg (by exact fun hc => Bool.false_ne_true hc), find_append_new k e c hany]
      rfl

/-- C4: immediately after `set k v t now` the cache answers `get k = v`
and `has k = true`; `set` stores `expiresAt = now + t * 1000`,
overwriting whatever entry the key had before; and at any instant past
that expiry, `get k` returns absent and, as a side effect, deletes the
expired entry from the backing map. -/
theorem cache_set_get_roundtrip (α : Type) (c : Cache α) (k : String)
    (v : α) (t now : Nat) (ht : 0 < t) :
    (InMemoryCache.get (InMemoryCache.set c k v t now) k now).1 = some v
    ∧ (InMemoryCache.has (InMemoryCache.set c k v t now) k now).1 = true
    ∧ mapGet (InMemoryCache.set c k v t now) k
        = some { data := v, expiresAt := now + t * 1000 }
    ∧ (∀ now2 : Nat, now + t * 1000 < now2 →
        (InMemoryCache.get (InMemoryCache.set c k v t now) k now2).1 = none
        ∧ (InMemoryCache.get (InMemoryCache.set c k v t now) k now2).2
            = mapDelete (InMemoryCache.set c k v t now) k) := by
  have hget : mapGet (InMemoryCache.set c k v t now) k
      = some { data := v, expiresAt := now + t * 1000 } :=
    mapGet_mapSet_self c k { data := v, expiresAt := now + t * 1000 }
  have hfresh : ¬ (now + t * 1000 < now) := by omega
  refine ⟨?_, ?_, hget, ?_⟩
  · rw [InMemoryCache.get, hget]
    simp [hfresh]
  · rw [InMemoryCache.has, hget]
    simp [hfresh]
  · intro now2 hexp
    rw [InMemoryCache.get, hget]
    simp [hexp]

/-- Witness for C4: storing 42 under a campaigns key with a 60-second TTL
at instant 1000 makes it readable at instant 1000 and expired (absent) at
instant 61001. -/
theorem cache_set_get_roundtrip_witness :
    (InMemoryCache.get
        (InMemoryCache.set ([] : Cache Nat) "campaigns:1" 42 60 1000)
        "campaigns:1" 1000).1 = some 42
    ∧ (InMemoryCache.get
        (InMemoryCache.set ([] : Cache Nat) "campaigns:1" 42 60 1000)
        "campaigns:1" 61001).1 = none :=
  ⟨(cache_set_get_roundtrip Nat [] "campaigns:1" 42 60 1000 (by decide)).1,
   ((cache_set_get_roundtrip Nat [] "campaigns:1" 42 60 1000 (by decide)).2.2.2
      61001 (by decide)).1⟩

/-- C5: on every cache state and key, `has` answers exactly "would `get`
return a value", and it leaves the cache in exactly the state `get`
would leave it in, including the eager deletion of an expired entry. -/
theorem has_agrees_with_get (α : Type) (c : Cache α) (k : String) (now : Nat) :
    (InMemoryCache.has c k now).1 = ((InMemoryCache.get c k now).1).isSome
    ∧ (InMemoryCache.has c k now).2 = (InMemoryCache.get c k now).2 := by
  rw [InMemoryCache.has, InMemoryCache.get]
  cases mapGet c k with
  | none => exact ⟨rfl, rfl⟩
  | some e =>
      by_cases h : e.expiresAt < now
      · simp [h]
      · simp [h]

theorem invalidateLoop_spec (α : Type) (test : String → Bool)
    (ks : List String) :
    ∀ (count : Nat) (c : Cache α),
    invalidateLoop test ks count c
      = (count + (ks.filter test).length,
         c.filter (fun kv => !(ks.contains kv.1 && test kv.1))) := by
  induction ks with
  | nil =>
      intro count c
      rw [invalidateLoop]
      simp
  | cons k rest ih =>
      intro count c
      by_cases hk : test k = true
      · rw [invalidateLoop, if_pos hk, ih]
        rw [mapDelete, List.filter_filter]
        have hfun : (fun kv : String × CacheEntry α =>
              !(rest.contains kv.1 && test kv.1) && (kv.1 != k))
            = (fun kv : String × CacheEntry α =>
              !((k :: rest).contains kv.1 && test kv.1)) := by
          funext kv
          by_cases hx : (kv.1 == k) = true
          · have hxk : kv.1 = k := eq_of_beq hx
            simp [List.contains_cons, bne, hx, hxk, hk]
          · have hne : kv.1 ≠ k := fun he => hx (by rw [he]; exact beq_self_eq_true k)
            simp [List.contains_cons, bne, hx, hne]
        rw [hfun]
        have hlen : ((k :: rest).filter test).length = (rest.filter test).length + 1 := by
          rw [List.filter_cons, if_pos hk]
          rfl
        rw [hlen]
        have harith : count + 1 + (rest.filter test).length
            = count + ((rest.filter test).length + 1) := by omega
        rw [harith]
      · rw [invalidateLoop, if_neg hk, ih]
        have hkf : test k = false := Bool.eq_false_iff.mpr hk
        have hfun : (fun kv : String × CacheEntry α =>
              !(rest.contains kv.1 && test kv.1))
            = (fun kv : String × CacheEntry α =>
              !((k :: rest).contains kv.1 && test kv.1)) := by
          funext kv
          by_cases hx : (kv.1 == k) = true
          · have hxk : kv.1 = k := eq_of_beq hx
            simp [List.contains_cons, hx, hxk, hkf]
          · have hne : kv.1 ≠ k := fun he => hx (by rw [he]; exact beq_self_eq_true k)
            simp [List.contains_cons, hx, hne]
        rw [hfun]
        rw [List.filter_cons, if_neg (by simp [hkf])]

theorem filter_map_fst (α : Type) (test : String → Bool) (c : Cache α) :
    (c.map Prod.fst).filter test = (c.filter (fun kv => test kv.1)).map Prod.fst := by
  induction c with
  | nil => rfl
  | cons kv rest ih =>
      by_cases h : test kv.1 = true
      · simp [List.filter_cons, h, ih]
      · simp [List.filter_cons, h, ih]

theorem length_filter_not_add (α : Type) (p : α → Bool) (l : List α) :
    (l.filter p).length + (l.filter (fun x => !(p x))).length = l.length := by
  induction l with
  | nil => rfl
  | cons x xs ih =>
      by_cases h : p x = true
      · simp [List.filter_cons, h]
        omega
      · simp [List.filter_cons, h]
        omega

/-- C7: `invalidatePattern` run with the compiled pattern's acceptance
predicate removes exactly the entries whose key the pattern accepts
(evaluated against the snapshot of keys taken before any deletion),
keeps every other entry with its value and expiry untouched and in
order, and returns the number of entries removed. -/
theorem invalidatePattern_exact (α : Type) (c : Cache α) (test : String → Bool) :
    (InMemoryCache.invalidatePattern c test).2
        = c.filter (fun kv => !(test kv.1))
    ∧ (InMemoryCache.invalidatePattern c test).1
        = (c.filter (fun kv => test kv.1)).length
    ∧ (InMemoryCache.invalidatePattern c test).1
        + (InMemoryCache.invalidatePattern c test).2.length = c.length := by
  have hloop := invalidateLoop_spec α test (c.map Prod.fst) 0 c
  have hcount : (InMemoryCache.invalidatePattern c test).1
      = (c.filter (fun kv => test kv.1)).length := by
    rw [InMemoryCache.invalidatePattern, hloop]
    simp only [Nat.zero_add]
    rw [filter_map_fst α test c, List.length_map]
  have hstate : (InMemoryCache.invalidatePattern c test).2
      = c.filter (fun kv => !(test kv.1)) := by
    rw [InMemoryCache.invalidatePattern, hloop]
    refine List.filter_congr ?_
    intro kv hkv
    have hmem : kv.1 ∈ c.map Prod.fst := List.mem_map_of_mem Prod.fst hkv
    have hcon : (c.map Prod.fst).contains kv.1 = true := List.elem_iff.mpr hmem
    rw [hcon]
    rw [Bool.true_and]
  refine ⟨hstate, hcount, ?_⟩
  rw [hcount, hstate]
  exact length_filter_not_add (String × CacheEntry α) (fun kv => test kv.1) c

/-- C9: every cache operation is total — on every input and cache state,
`set`, `get`, `has`, `delete`, `clear`, `stats` and `destroy` return a
value (their embeddings are total functions; the TypeScript bodies
contain no throw and call only non-throwing Map primitives) — and
`invalidatePattern` run through regular-expression compilation succeeds
exactly when the pattern compiles, surfacing the compilation error to the
caller otherwise. -/
theorem cache_operations_total (α : Type) (c : Cache α) (k : String)
    (v : α) (t now : Nat) (compiled : Option (String → Bool)) :
    (∃ c2 : Cache α, InMemoryCache.set c k v t now = c2)
    ∧ (∃ r : Option α × Cache α, InMemoryCache.get c k now = r)
    ∧ (∃ r : Bool × Cache α, InMemoryCache.has c k now = r)
    ∧ (∃ r : Bool × Cache α, InMemoryCache.delete c k = r)
    ∧ InMemoryCache.clear c = ([] : Cache α)
    ∧ InMemoryCache.stats c = { size := c.length, keys := c.map Prod.fst }
    ∧ InMemoryCache.destroy c = ([] : Cache α)
    ∧ (∀ test, compiled = some test →
        invalidatePatternChecked c compiled
          = Except.ok (InMemoryCache.invalidatePattern c test))
    ∧ (compiled = none →
        invalidatePatternChecked c compiled
          = Except.error "Invalid regular expression pattern") := by
  refine ⟨⟨_, rfl⟩, ⟨_, rfl⟩, ⟨_, rfl⟩, ⟨_, rfl⟩, rfl, rfl, rfl, ?_, ?_⟩
  · intro test hc
    rw [hc]
    rfl
  · intro hc
    rw [hc]
    rfl

/-- Witness for C9: a compiled pattern yields a successful count, and a
pattern that fails to compile surfaces the error. -/
theorem cache_operations_total_witness :
    invalidatePatternChecked ([] : Cache Nat) none
      = Except.error "Invalid regular expression pattern"
    ∧ invalidatePatternChecked ([] : Cache Nat) (some (fun _ => true))
      = Except.ok (0, ([] : Cache Nat)) :=
  ⟨(cache_operations_total Nat [] "k" 0 1 2 none).2.2.2.2.2.2.2.2 rfl,
   (cache_operations_total Nat [] "k" 0 1 2 (some (fun _ => true))).2.2.2.2.2.2.2.1
      (fun _ => true) rfl⟩
